import Mathlib

/-!
Shallow embedding of the elfdb debugger core (a 16-opcode register VM with
read/write tracking, a hook/breakpoint language and a control loop), together
with theorems settling the specification claims.

Conventions of the embedding:
- Rust i64 values are modelled as Lean Int.
- Rust usize values are modelled as Nat; the cast i64-as-usize is modelled
  exactly as reduction modulo 2^64.
- Rust HashSet is modelled as Finset (only set contents are observable).
- Fallible Rust functions returning Result are modelled as Except String;
  functions that mutate state through &mut even on the error path return the
  updated state alongside the Except result.
-/

/-- Register values, Rust type alias `type Reg = i64`. -/
abbrev Reg := Int

deriving instance DecidableEq for Except

/-- Split a character list at every space, keeping empty chunks: the exact
behaviour of Rust str::split with a single-space pattern. -/
def splitOnSpace : List Char → List (List Char)
  | [] => [[]]
  | c :: rest =>
    if c = ' ' then [] :: splitOnSpace rest
    else
      match splitOnSpace rest with
      | [] => [[c]]
      | t :: ts => (c :: t) :: ts

/-- Rust str::split(" ") over a string, producing the chunks as strings. -/
def splitTokens (s : String) : List String :=
  (splitOnSpace s.data).map (fun cs => String.mk cs)

/-- The `AsReg` conversion for i64: Rust `self as usize` on a 64-bit target,
i.e. reduction of the two-complement value modulo 2^64. -/
def asReg (i : Int) : Nat :=
  (i % (2 ^ 64 : Int)).toNat

/-- Accumulate a list of ASCII digits into a Nat (base 10). -/
def digitsToNat (ds : List Char) : Nat :=
  ds.foldl (fun acc c => acc * 10 + (c.toNat - 48)) 0

/-- Rust str::parse for i64: optional sign, one or more ASCII digits,
value must fit in the signed 64-bit range. -/
def parseI64 (s : String) : Option Int :=
  let cs := s.toList
  let signed : Int × List Char :=
    match cs with
    | '+' :: rest => (1, rest)
    | '-' :: rest => (-1, rest)
    | _ => (1, cs)
  let ds := signed.2
  if ds.isEmpty then none
  else if ds.all (fun c => c.isDigit) then
    let v : Int := signed.1 * (digitsToNat ds : Int)
    if -(2 ^ 63) ≤ v ∧ v ≤ 2 ^ 63 - 1 then some v else none
  else none

/-- Rust str::parse for usize: optional plus sign, one or more ASCII digits,
value must fit in unsigned 64-bit range. -/
def parseUsize (s : String) : Option Nat :=
  let cs := s.toList
  let ds : List Char :=
    match cs with
    | '+' :: rest => rest
    | _ => cs
  if ds.isEmpty then none
  else if ds.all (fun c => c.isDigit) then
    let v := digitsToNat ds
    if v < 2 ^ 64 then some v else none
  else none

/-- The sixteen opcodes of the machine (src/op_code.rs). -/
inductive OpCode where
  | Addr | Addi | Mulr | Muli
  | Banr | Bani | Borr | Bori
  | Setr | Seti
  | Gtir | Gtri | Gtrr
  | Eqir | Eqri | Eqrr
deriving DecidableEq

/-- The lowercase display name of an opcode (the Display impl). -/
def OpCode.name : OpCode → String
  | .Addr => "addr"
  | .Addi => "addi"
  | .Mulr => "mulr"
  | .Muli => "muli"
  | .Banr => "banr"
  | .Bani => "bani"
  | .Borr => "borr"
  | .Bori => "bori"
  | .Setr => "setr"
  | .Seti => "seti"
  | .Gtir => "gtir"
  | .Gtri => "gtri"
  | .Gtrr => "gtrr"
  | .Eqir => "eqir"
  | .Eqri => "eqri"
  | .Eqrr => "eqrr"

/-- OpCode::decode: accepts exactly the sixteen lowercase names. -/
def OpCode.decode (input : String) : Option OpCode :=
  match input with
  | "addr" => some .Addr
  | "addi" => some .Addi
  | "mulr" => some .Mulr
  | "muli" => some .Muli
  | "banr" => some .Banr
  | "bani" => some .Bani
  | "borr" => some .Borr
  | "bori" => some .Bori
  | "setr" => some .Setr
  | "seti" => some .Seti
  | "gtir" => some .Gtir
  | "gtri" => some .Gtri
  | "gtrr" => some .Gtrr
  | "eqir" => some .Eqir
  | "eqri" => some .Eqri
  | "eqrr" => some .Eqrr
  | _ => none

/-- The register file (src/registers.rs). Field names follow the source:
`registers` is the array of six cells, `ip` is the index of the register that
holds the instruction pointer, `written` and `read` are the tracking sets. -/
structure Registers where
  registers : List Reg
  written : Finset Nat
  read : Finset Nat
  last_ip : Option Nat
  ip : Nat
deriving DecidableEq

/-- Registers::default (Default derive): six zero cells, empty sets. -/
def defaultRegisters : Registers :=
  { registers := [0, 0, 0, 0, 0, 0]
    written := ∅
    read := ∅
    last_ip := none
    ip := 0 }

/-- Registers::is_written. -/
def Registers.is_written (r : Registers) (reg : Nat) : Bool :=
  reg ∈ r.written

/-- Registers::is_read. -/
def Registers.is_read (r : Registers) (reg : Nat) : Bool :=
  reg ∈ r.read

/-- Registers::reg by usize index: insert into the read set first, then look
the cell up; the read-set insertion persists even when the lookup fails. -/
def Registers.reg (r : Registers) (index : Nat) : Except String Reg × Registers :=
  match r.registers[index]? with
  | some v => (Except.ok v, { r with read := insert index r.read })
  | none => (Except.error "no such register", { r with read := insert index r.read })

/-- Registers::reg with an i64 argument (through the AsReg conversion). -/
def Registers.regI (r : Registers) (i : Reg) : Except String Reg × Registers :=
  Registers.reg r (asReg i)

/-- Registers::reg_mut, modelled as the range check plus the written-set
insertion; the insertion persists even when the check fails. The actual
write through the returned handle is a separate List.set. -/
def Registers.regMut (r : Registers) (index : Nat) : Except String Unit × Registers :=
  match r.registers[index]? with
  | some _ => (Except.ok (), { r with written := insert index r.written })
  | none => (Except.error "no such register", { r with written := insert index r.written })

/-- Registers::ip (the read accessor): cell at index `ip` cast i64-as-usize.
Does not touch the tracking sets. -/
def Registers.ipVal (r : Registers) : Except String Nat :=
  match r.registers[r.ip]? with
  | some v => Except.ok (asReg v)
  | none => Except.error "no ip register"

/-- The increment `*registers.ip_mut()? += 1` performed by Device::step. -/
def Registers.ipInc (r : Registers) : Except String Registers :=
  match r.registers[r.ip]? with
  | some v => Except.ok { r with registers := r.registers.set r.ip (v + 1) }
  | none => Except.error "no ip register"

/-- Registers::clear: empty both tracking sets, nothing else. -/
def Registers.clearR (r : Registers) : Registers :=
  { r with written := ∅, read := ∅ }

/-- Registers::reset: empty the tracking sets, clear last_ip, zero every cell.
The ip index is kept. -/
def Registers.resetR (r : Registers) : Registers :=
  { r with
    written := ∅
    read := ∅
    last_ip := none
    registers := r.registers.map (fun _ => 0) }

/-- Read register `a` and combine with a pure function of its value. -/
def rhs1 (r : Registers) (a : Reg) (f : Reg → Reg) : Except String Reg × Registers :=
  match Registers.regI r a with
  | (Except.error e, r2) => (Except.error e, r2)
  | (Except.ok x, r2) => (Except.ok (f x), r2)

/-- Read registers `a` then `b` and combine with a pure function. -/
def rhs2 (r : Registers) (a b : Reg) (f : Reg → Reg → Reg) : Except String Reg × Registers :=
  match Registers.regI r a with
  | (Except.error e, r2) => (Except.error e, r2)
  | (Except.ok x, r2) =>
    match Registers.regI r2 b with
    | (Except.error e, r3) => (Except.error e, r3)
    | (Except.ok y, r3) => (Except.ok (f x y), r3)

/-- Turn a Bool into the 0/1 result of the comparison opcodes. -/
def boolVal (b : Bool) : Reg :=
  if b then 1 else 0

/-- The right-hand side computed by OpCode::apply: the register reads happen
left to right, exactly as in the source match. -/
def OpCode.rhsOf (op : OpCode) (r : Registers) (a b : Reg) : Except String Reg × Registers :=
  match op with
  | .Addr => rhs2 r a b (fun x y => x + y)
  | .Addi => rhs1 r a (fun x => x + b)
  | .Mulr => rhs2 r a b (fun x y => x * y)
  | .Muli => rhs1 r a (fun x => x * b)
  | .Banr => rhs2 r a b (fun x y => Int.land x y)
  | .Bani => rhs1 r a (fun x => Int.land x b)
  | .Borr => rhs2 r a b (fun x y => Int.lor x y)
  | .Bori => rhs1 r a (fun x => Int.lor x b)
  | .Setr => rhs1 r a (fun x => x)
  | .Seti => (Except.ok a, r)
  | .Gtir => rhs1 r b (fun y => boolVal (a > y))
  | .Gtri => rhs1 r a (fun x => boolVal (x > b))
  | .Gtrr => rhs2 r a b (fun x y => boolVal (x > y))
  | .Eqir => rhs1 r b (fun y => boolVal (a = y))
  | .Eqri => rhs1 r a (fun x => boolVal (x = b))
  | .Eqrr => rhs2 r a b (fun x y => boolVal (x = y))

/-- OpCode::apply. Rust assignment evaluates the value operand (the register
reads) first, then the place expression `*r.reg_mut(o)?`, then stores. -/
def OpCode.apply (op : OpCode) (r : Registers) (inputs : Reg × Reg) (o : Reg) :
    Except String Unit × Registers :=
  match OpCode.rhsOf op r inputs.1 inputs.2 with
  | (Except.error e, r2) => (Except.error e, r2)
  | (Except.ok v, r2) =>
    match Registers.regMut r2 (asReg o) with
    | (Except.error e, r3) => (Except.error e, r3)
    | (Except.ok _, r3) =>
      (Except.ok (), { r3 with registers := r3.registers.set (asReg o) v })

/-- An instruction (src/instruction.rs). -/
structure Instruction where
  op_code : OpCode
  inputs : Reg × Reg
  output : Reg
deriving DecidableEq

/-- Instruction::decode: split the line on single spaces, decode the first
token as an opcode, then keep only the remaining tokens that parse as i64
(flat_map with parse.ok) and take the first three as operands. -/
def Instruction.decode (state : String) : Option Instruction :=
  match splitTokens state with
  | [] => none
  | tok :: rest =>
    match OpCode.decode tok with
    | none => none
    | some op =>
      match rest.filterMap parseI64 with
      | a :: b :: o :: _ => some { op_code := op, inputs := (a, b), output := o }
      | _ => none

/-- The device (src/device.rs): program, register file, halted flag,
executed-instruction count and the set of unique executed lines. -/
structure Device where
  halted : Bool
  instructions : List Instruction
  registers : Registers
  count : Nat
  unique : Finset Nat
deriving DecidableEq

/-- Device::default. -/
def defaultDevice : Device :=
  { halted := false
    instructions := []
    registers := defaultRegisters
    count := 0
    unique := ∅ }

/-- Device::reset. -/
def Device.reset (d : Device) : Device :=
  { d with
    halted := false
    count := 0
    unique := ∅
    registers := d.registers.resetR }

/-- Device::clear. -/
def Device.clear (d : Device) : Device :=
  { d with registers := d.registers.clearR }

/-- Device::step. Mutations made before an error persist in the returned
device, matching the &mut self receiver. -/
def Device.step (d : Device) : Except String Unit × Device :=
  match d.registers.ipVal with
  | Except.error e => (Except.error e, d)
  | Except.ok ip =>
    match d.instructions[ip]? with
    | none => (Except.ok (), { d with halted := true })
    | some inst =>
      match d.registers.ipVal with
      | Except.error e => (Except.error e, d)
      | Except.ok ip2 =>
        let r : Registers := { d.registers with last_ip := some ip2 }
        match OpCode.apply inst.op_code r inst.inputs inst.output with
        | (Except.error e, r2) => (Except.error e, { d with registers := r2 })
        | (Except.ok _, r2) =>
          match r2.ipInc with
          | Except.error e => (Except.error e, { d with registers := r2 })
          | Except.ok r3 =>
            (Except.ok (),
              { d with
                registers := r3
                unique := insert ip d.unique
                count := d.count + 1 })

/-- The line loop of Device::load: a line starting with "#ip" sets the ip
index from its second space-separated token parsed as usize; any other line
must decode as an instruction, otherwise the load aborts. -/
def Device.loadLines (d : Device) : List String → Except String Device
  | [] => Except.ok d
  | line :: rest =>
    if "#ip".data.isPrefixOf line.data then
      match (splitTokens line)[1]? with
      | none => Except.error "expected argument to ip directive"
      | some arg =>
        match parseUsize arg with
        | none => Except.error "bad argument to ip directive"
        | some n =>
          Device.loadLines
            { d with registers := { d.registers with ip := n } } rest
    else
      match Instruction.decode line with
      | none => Except.error "bad instruction"
      | some inst =>
        Device.loadLines { d with instructions := d.instructions ++ [inst] } rest

/-- Device::load: reset, clear the instruction list, then process each line. -/
def Device.load (d : Device) (input : List String) : Except String Device :=
  Device.loadLines { d.reset with instructions := [] } input

/-- The Action returned by a hook evaluation (src/hook.rs).
Named Act here because Mathlib already has a constant Action. -/
inductive Act where
  | Pause
  | None
deriving DecidableEq

/-- The comparison operators of the hook language (src/hook.rs enum Op). -/
inductive Op where
  | Eq | Lt | Lte | Gt | Gte
deriving DecidableEq

/-- Op::test. -/
def Op.check (op : Op) (a b : Reg) : Bool :=
  match op with
  | .Eq => a = b
  | .Gt => a > b
  | .Gte => a ≥ b
  | .Lt => a < b
  | .Lte => a ≤ b

/-- The hook AST (src/hook.rs). The Unique variant carries its private seen
set and last observed value, then the register index, as in the source. -/
inductive Hook where
  | Read : Nat → Hook
  | Write : Nat → Hook
  | Line : Nat → Hook
  | Op : Op → Nat → Reg → Hook
  | Unique : Finset Reg → Option Reg → Nat → Hook
  | Not : Hook → Hook
  | All : List Hook → Hook

/-- Hook::unique, the constructor used by the parser. -/
def Hook.uniqueHook (register : Nat) : Hook :=
  Hook.Unique ∅ none register

/-- Hook::reset: the source clears only the seen set of a Unique variant
(the last field is untouched) and recurses only into Not; the catch-all arm
leaves every other variant, All included, unchanged. -/
def Hook.reset : Hook → Hook
  | Hook.Unique _ last register => Hook.Unique ∅ last register
  | Hook.Not inner => Hook.Not inner.reset
  | h => h

mutual
/-- Hook::test: evaluate a hook against the device. Both the hook (its
Unique state) and the device (its read set, through Registers::reg) can be
mutated, also on the error path, so both are always returned. -/
def Hook.test : Hook → Device → Except String Act × Hook × Device
  | Hook.Read reg, d =>
    (Except.ok (if d.registers.is_read reg then Act.Pause else Act.None),
      Hook.Read reg, d)
  | Hook.Write reg, d =>
    (Except.ok (if d.registers.is_written reg then Act.Pause else Act.None),
      Hook.Write reg, d)
  | Hook.Line line, d =>
    (Except.ok (if d.registers.last_ip = some line then Act.Pause else Act.None),
      Hook.Line line, d)
  | Hook.Op op reg value, d =>
    match d.registers.reg reg with
    | (Except.error e, r2) => (Except.error e, Hook.Op op reg value, { d with registers := r2 })
    | (Except.ok x, r2) =>
      (Except.ok (if op.check x value then Act.Pause else Act.None),
        Hook.Op op reg value, { d with registers := r2 })
  | Hook.Unique seen last register, d =>
    match d.registers.reg register with
    | (Except.error e, r2) =>
      (Except.error e, Hook.Unique seen last register, { d with registers := r2 })
    | (Except.ok value, r2) =>
      if value ∈ seen then
        (Except.ok Act.None, Hook.Unique seen last register, { d with registers := r2 })
      else
        (Except.ok Act.Pause, Hook.Unique (insert value seen) (some value) register,
          { d with registers := r2 })
  | Hook.Not inner, d =>
    match Hook.test inner d with
    | (Except.error e, h, d2) => (Except.error e, Hook.Not h, d2)
    | (Except.ok Act.None, h, d2) => (Except.ok Act.Pause, Hook.Not h, d2)
    | (Except.ok Act.Pause, h, d2) => (Except.ok Act.None, Hook.Not h, d2)
  | Hook.All hooks, d =>
    match Hook.testList hooks d with
    | (res, hooks2, d2) => (res, Hook.All hooks2, d2)

/-- The loop inside Hook::test for the All variant: children are tested in
order; the first child answering None stops the loop (children after it are
not tested); if every child pauses the result is Pause. -/
def Hook.testList : List Hook → Device → Except String Act × List Hook × Device
  | [], d => (Except.ok Act.Pause, [], d)
  | h :: hs, d =>
    match Hook.test h d with
    | (Except.error e, h2, d2) => (Except.error e, h2 :: hs, d2)
    | (Except.ok Act.None, h2, d2) => (Except.ok Act.None, h2 :: hs, d2)
    | (Except.ok Act.Pause, h2, d2) =>
      match Hook.testList hs d2 with
      | (res, hs2, d3) => (res, h2 :: hs2, d3)
end

/-- The hook pass of the Free-mode control loop (src/tui.rs, draw): every
hook in the list is tested in order with no skipping; a Pause answer sets the
interactive flag; an error aborts the pass, keeping the prefix mutations. -/
def hookPass : List Hook → Bool → Device → Except String Unit × List Hook × Bool × Device
  | [], flag, d => (Except.ok (), [], flag, d)
  | h :: hs, flag, d =>
    match Hook.test h d with
    | (Except.error e, h2, d2) => (Except.error e, h2 :: hs, flag, d2)
    | (Except.ok a, h2, d2) =>
      match hookPass hs (if a = Act.Pause then true else flag) d2 with
      | (res, hs2, flag2, d3) => (res, h2 :: hs2, flag2, d3)

/-- A fresh device whose register file holds value `v` in cell `r`. -/
def devRV (r : Nat) (v : Reg) : Device :=
  { defaultDevice with
    registers := { defaultRegisters with registers := [0, 0, 0, 0, 0, 0].set r v } }

/-- Run a hook against a list of devices in order, threading the hook state
and recording whether each evaluation paused. -/
def runHook : Hook → List Device → List Bool
  | _, [] => []
  | h, d :: ds =>
    match Hook.test h d with
    | (res, h2, _) =>
      (match res with
       | Except.ok Act.Pause => true
       | _ => false) :: runHook h2 ds

/-- Specification-side run of a unique hook over a value sequence: pause
exactly when the value has not been seen, then remember it. -/
def uniqueRunSpec : Finset Reg → List Reg → List Bool
  | _, [] => []
  | seen, v :: vs =>
    (if v ∈ seen then false else true) :: uniqueRunSpec (insert v seen) vs

/-- Specification-side hook pass: test every hook unconditionally in order,
threading the device, and collect each answer with the updated hook. -/
def testEach : List Hook → Device → Except String Unit × List (Act × Hook) × Device
  | [], d => (Except.ok (), [], d)
  | h :: hs, d =>
    match Hook.test h d with
    | (Except.error e, _, d2) => (Except.error e, [], d2)
    | (Except.ok a, h2, d2) =>
      match testEach hs d2 with
      | (res, rs, d3) => (res, (a, h2) :: rs, d3)

/-- Registers::reg always returns the state with the index added to the read
set and nothing else changed, whether or not the lookup succeeded. -/
theorem reg_snd (r : Registers) (i : Nat) :
    (Registers.reg r i).2 = { r with read := insert i r.read } := by
  cases h : r.registers[i]? <;> simp [Registers.reg, h]

/-- Registers::reg_mut always returns the state with the index added to the
written set and nothing else changed. -/
theorem regMut_snd (r : Registers) (i : Nat) :
    (Registers.regMut r i).2 = { r with written := insert i r.written } := by
  cases h : r.registers[i]? <;> simp [Registers.regMut, h]

/-- The value returned by a successful Registers::reg is the cell content. -/
theorem reg_ok (r : Registers) (i : Nat) (v : Reg)
    (h : (Registers.reg r i).1 = Except.ok v) : r.registers[i]? = some v := by
  cases hg : r.registers[i]? with
  | none => simp [Registers.reg, hg] at h
  | some w => simp [Registers.reg, hg] at h; rw [h]

/-- The cells, ip index and last_ip are untouched by rhs1. -/
theorem rhs1_frame (r : Registers) (a : Reg) (f : Reg → Reg) :
    ((rhs1 r a f).2).registers = r.registers ∧ ((rhs1 r a f).2).ip = r.ip ∧
    ((rhs1 r a f).2).last_ip = r.last_ip := by
  unfold rhs1 Registers.regI Registers.reg
  cases h : r.registers[asReg a]? <;> simp [h]

/-- The cells, ip index and last_ip are untouched by rhs2. -/
theorem rhs2_frame (r : Registers) (a b : Reg) (f : Reg → Reg → Reg) :
    ((rhs2 r a b f).2).registers = r.registers ∧ ((rhs2 r a b f).2).ip = r.ip ∧
    ((rhs2 r a b f).2).last_ip = r.last_ip := by
  unfold rhs2 Registers.regI Registers.reg
  cases h1 : r.registers[asReg a]? <;> simp [h1]
  cases h2 : r.registers[asReg b]? <;> simp [h2]

/-- The cells, ip index and last_ip are untouched by every opcode rhs. -/
theorem rhsOf_frame (op : OpCode) (r : Registers) (a b : Reg) :
    ((OpCode.rhsOf op r a b).2).registers = r.registers ∧
    ((OpCode.rhsOf op r a b).2).ip = r.ip ∧
    ((OpCode.rhsOf op r a b).2).last_ip = r.last_ip := by
  cases op <;>
    simp only [OpCode.rhsOf] <;>
    first
      | exact rhs1_frame r a _
      | exact rhs1_frame r b _
      | exact rhs2_frame r a b _
      | simp

/-- For a nonnegative i64 value below 2^63 the usize cast is the identity. -/
theorem asReg_of_nonneg (v : Int) (h0 : 0 ≤ v) (h1 : v < 2 ^ 63) :
    (asReg v : Int) = v := by
  unfold asReg
  have e64 : (2 : Int) ^ 64 = 18446744073709551616 := by norm_num
  have e63 : (2 : Int) ^ 63 = 9223372036854775808 := by norm_num
  rw [e64]
  rw [e63] at h1
  omega

/-- For a negative i64 value the usize cast lands at or above 2^63. -/
theorem asReg_of_neg (v : Int) (h0 : -(2 ^ 63) ≤ v) (h1 : v < 0) :
    2 ^ 63 ≤ asReg v := by
  unfold asReg
  have e64 : (2 : Int) ^ 64 = 18446744073709551616 := by norm_num
  have e63 : (2 : Int) ^ 63 = 9223372036854775808 := by norm_num
  have e63n : (2 : Nat) ^ 63 = 9223372036854775808 := by norm_num
  rw [e64]
  rw [e63] at h0
  rw [e63n]
  omega

/-- When the ip accessor succeeds there is a cell whose cast is the ip. -/
theorem ipVal_some (r : Registers) (ip : Nat) (h : r.ipVal = Except.ok ip) :
    ∃ v, r.registers[r.ip]? = some v ∧ asReg v = ip := by
  unfold Registers.ipVal at h
  cases hg : r.registers[r.ip]? with
  | none => rw [hg] at h; cases h
  | some v => rw [hg] at h; cases h; exact ⟨v, rfl, rfl⟩

/-- Device::step under a successful fetch reduces to the apply-increment
sequence on the registers with last_ip recorded. -/
theorem step_exec (d : Device) (ip : Nat) (inst : Instruction)
    (h1 : d.registers.ipVal = Except.ok ip)
    (h2 : d.instructions[ip]? = some inst) :
    Device.step d =
      (match OpCode.apply inst.op_code { d.registers with last_ip := some ip }
          inst.inputs inst.output with
       | (Except.error e, r2) => (Except.error e, { d with registers := r2 })
       | (Except.ok _, r2) =>
         match r2.ipInc with
         | Except.error e => (Except.error e, { d with registers := r2 })
         | Except.ok r3 =>
           (Except.ok (),
             { d with
               registers := r3
               unique := insert ip d.unique
               count := d.count + 1 })) := by
  simp only [Device.step, h1, h2]

/-- Device::step halts successfully when the fetch is out of range. -/
theorem step_halt (d : Device) (ip : Nat)
    (h1 : d.registers.ipVal = Except.ok ip)
    (h2 : d.instructions[ip]? = none) :
    Device.step d = (Except.ok (), { d with halted := true }) := by
  simp only [Device.step, h1, h2]

/-- A successful OpCode::apply is a successful rhs computation followed by a
written-set insertion and a cell store at the output index. -/
theorem apply_ok (op : OpCode) (r : Registers) (inputs : Reg × Reg) (o : Reg)
    (r2 : Registers)
    (h : OpCode.apply op r inputs o = (Except.ok (), r2)) :
    ∃ w rr, OpCode.rhsOf op r inputs.1 inputs.2 = (Except.ok w, rr) ∧
      (∃ u, rr.registers[asReg o]? = some u) ∧
      r2 = { rr with
             written := insert (asReg o) rr.written
             registers := rr.registers.set (asReg o) w } := by
  unfold OpCode.apply Registers.regMut at h
  rcases hr : OpCode.rhsOf op r inputs.1 inputs.2 with ⟨rv, rr⟩
  rw [hr] at h
  cases rv with
  | error e => simp at h
  | ok w =>
    dsimp only [] at h
    cases hg : rr.registers[asReg o]? with
    | none => rw [hg] at h; simp at h
    | some u =>
      rw [hg] at h
      simp at h
      exact ⟨w, rr, rfl, ⟨u, hg⟩, h.symm⟩

/-- C8: for each of the 16 opcodes, decoding the displayed lowercase name
yields the same opcode back. -/
theorem c8_decode_display_roundtrip (op : OpCode) :
    OpCode.decode (OpCode.name op) = some op := by
  cases op <;> rfl

/-- C9: reading or writing a register index outside 0..5 fails with an error
but still inserts the index into the read or written tracking set. -/
theorem c9_bad_register_still_tracks (r : Registers) (i : Nat)
    (hlen : r.registers.length = 6) (hi : 6 ≤ i) :
    (Registers.reg r i).1 = Except.error "no such register" ∧
    (Registers.reg r i).2 = { r with read := insert i r.read } ∧
    i ∈ (Registers.reg r i).2.read ∧
    (Registers.regMut r i).1 = Except.error "no such register" ∧
    (Registers.regMut r i).2 = { r with written := insert i r.written } ∧
    i ∈ (Registers.regMut r i).2.written := by
  have hg : r.registers[i]? = none := by
    rw [List.getElem?_eq_none_iff]
    omega
  refine ⟨?_, ?_, ?_, ?_, ?_, ?_⟩ <;>
    simp [Registers.reg, Registers.regMut, hg]

/-- Witness for C9 at the default register file and index 6. -/
theorem c9_bad_register_still_tracks_witness :
    defaultRegisters.registers.length = 6 ∧ 6 ≤ 6 ∧
    (Registers.reg defaultRegisters 6).1 = Except.error "no such register" ∧
    6 ∈ (Registers.reg defaultRegisters 6).2.read ∧
    (Registers.regMut defaultRegisters 6).1 = Except.error "no such register" ∧
    6 ∈ (Registers.regMut defaultRegisters 6).2.written := by
  have h := c9_bad_register_still_tracks defaultRegisters 6 (by decide) (by decide)
  exact ⟨by decide, by decide, h.1, h.2.2.1, h.2.2.2.1, h.2.2.2.2.2⟩

/-- C10: when the ip cell holds a negative i64 value (and the program is no
longer than 2^63 lines), the cast lands out of range, so Device::step
succeeds and just sets halted. -/
theorem c10_negative_ip_halts (d : Device) (v : Reg)
    (hv : d.registers.registers[d.registers.ip]? = some v)
    (h0 : -(2 ^ 63) ≤ v) (h1 : v < 0)
    (hlen : d.instructions.length ≤ 2 ^ 63) :
    Device.step d = (Except.ok (), { d with halted := true }) := by
  have hip : d.registers.ipVal = Except.ok (asReg v) := by
    unfold Registers.ipVal
    rw [hv]
  have hge : 2 ^ 63 ≤ asReg v := asReg_of_neg v h0 h1
  have hn : d.instructions[asReg v]? = none := by
    rw [List.getElem?_eq_none_iff]
    exact le_trans hlen hge
  exact step_halt d (asReg v) hip hn

/-- Witness for C10: a device holding -1 in its ip register halts cleanly. -/
theorem c10_negative_ip_halts_witness :
    (devRV 0 (-1)).registers.registers[(devRV 0 (-1)).registers.ip]? = some (-1) ∧
    Device.step (devRV 0 (-1)) = (Except.ok (), { devRV 0 (-1) with halted := true }) := by
  refine ⟨by decide, ?_⟩
  exact c10_negative_ip_halts (devRV 0 (-1)) (-1) (by decide) (by decide) (by decide)
    (by decide)

/-- C1 counterexample: in the set-and-increment program, the second step
observes halting and returns success, but count stays at 1, not the claimed
2, because the halting branch returns before the count increment. -/
theorem c1_halting_step_count_counterexample :
    ((Device.load defaultDevice ["#ip 0", "seti 5 0 0"]).map
      (fun d0 => ((Device.step (Device.step d0).2).1,
                  (Device.step (Device.step d0).2).2.halted,
                  (Device.step (Device.step d0).2).2.count))) =
    Except.ok (Except.ok (), true, 1) := by
  decide

/-- C1 (amended): count increases by exactly one on every successful
non-halting step; a step that observes halting succeeds without touching
count; in the set-and-increment program the second step sets halted and
leaves count at 1. -/
theorem c1_count_increment_amended :
    (∀ d d' ip, d.registers.ipVal = Except.ok ip →
      Device.step d = (Except.ok (), d') →
      ((d.instructions[ip]? = none → d'.count = d.count) ∧
       (d.instructions[ip]? ≠ none → d'.count = d.count + 1))) ∧
    ((Device.load defaultDevice ["#ip 0", "seti 5 0 0"]).map
      (fun d0 => ((Device.step (Device.step d0).2).2.halted,
                  (Device.step (Device.step d0).2).2.count))) =
    Except.ok (true, 1) := by
  constructor
  · intro d d' ip h1 hstep
    constructor
    · intro hn
      rw [step_halt d ip h1 hn] at hstep
      simp at hstep
      rw [← hstep]
    · intro hs
      rcases Option.ne_none_iff_exists.mp hs with ⟨inst, hinst⟩
      rw [step_exec d ip inst h1 hinst.symm] at hstep
      rcases happ : OpCode.apply inst.op_code { d.registers with last_ip := some ip }
          inst.inputs inst.output with ⟨ra, r2⟩
      rw [happ] at hstep
      cases ra with
      | error e => simp at hstep
      | ok u =>
        dsimp only [] at hstep
        cases hinc : r2.ipInc with
        | error e => rw [hinc] at hstep; simp at hstep
        | ok r3 =>
          rw [hinc] at hstep
          simp at hstep
          rw [← hstep]
  · decide

/-- Witness for the amended C1 at the loaded set-and-increment device. -/
theorem c1_count_increment_amended_witness :
    (Device.load defaultDevice ["#ip 0", "seti 5 0 0"]).toOption.map
        (fun d0 => ((Device.step d0).1, (Device.step d0).2.count, d0.count)) =
      some (Except.ok (), 1, 0) ∧
    ∀ d0, Device.load defaultDevice ["#ip 0", "seti 5 0 0"] = Except.ok d0 →
      (Device.step d0).2.count = d0.count + 1 := by
  constructor
  · decide
  · intro d0 hload
    have hd0 : d0 = { halted := false
                      instructions := [{ op_code := OpCode.Seti, inputs := (5, 0), output := 0 }]
                      registers := defaultRegisters
                      count := 0
                      unique := ∅ } := by
      have : (Device.load defaultDevice ["#ip 0", "seti 5 0 0"]).toOption = some d0 := by
        rw [hload]; rfl
      rw [(by decide : (Device.load defaultDevice ["#ip 0", "seti 5 0 0"]).toOption =
        some { halted := false
               instructions := [{ op_code := OpCode.Seti, inputs := (5, 0), output := 0 }]
               registers := defaultRegisters
               count := 0
               unique := ∅ })] at this
      exact (Option.some_inj.mp this).symm
    subst hd0
    exact (c1_count_increment_amended.1 _ _ 0 (by decide) (by decide)).2 (by decide)

/-- A device with its halted flag raised while the ip register still points
at a real instruction. -/
def haltedTampered : Device :=
  { halted := true
    instructions := [{ op_code := OpCode.Seti, inputs := (5, 0), output := 0 }]
    registers := defaultRegisters
    count := 0
    unique := ∅ }

/-- C3 counterexample: step does not consult the halted flag, so a device
with halted = true but an in-range ip executes the instruction: the call
succeeds yet count and the cells change, so it is not a no-op. -/
theorem c3_halted_not_noop_counterexample :
    (Device.step haltedTampered).1 = Except.ok () ∧
    (Device.step haltedTampered).2.count = 1 ∧
    haltedTampered.count = 0 ∧
    (Device.step haltedTampered).2.registers.registers ≠
      haltedTampered.registers.registers := by
  exact ⟨by decide, by decide, by decide, by decide⟩

/-- C3 (amended): a halted device is left exactly unchanged by a further
successful step provided its ip value is still at or beyond the end of the
program (which is how the flag was set and which step itself never undoes);
in particular the tracking sets stay as they were. -/
theorem c3_halted_noop_amended (d : Device) (ip : Nat)
    (h0 : d.halted = true)
    (h1 : d.registers.ipVal = Except.ok ip)
    (h2 : d.instructions.length ≤ ip) :
    Device.step d = (Except.ok (), d) := by
  have hn : d.instructions[ip]? = none := by
    rw [List.getElem?_eq_none_iff]
    exact h2
  rw [step_halt d ip h1 hn]
  have he : ({ d with halted := true } : Device) = d := by
    cases d with
    | mk hh i r c u =>
      dsimp only [] at h0
      rw [h0]
  rw [he]

/-- Witness for the amended C3: a freshly halted empty device. -/
theorem c3_halted_noop_amended_witness :
    ({ defaultDevice with halted := true } : Device).halted = true ∧
    Device.step { defaultDevice with halted := true } =
      (Except.ok (), { defaultDevice with halted := true }) :=
  ⟨by decide,
    c3_halted_noop_amended { defaultDevice with halted := true } 0 (by decide) (by decide)
      (by decide)⟩

/-- C6 counterexample: decode tolerates a fourth operand token and even a
non-numeric token, because unparseable tokens are silently skipped and only
the first three parseable ones are kept; the claim says such lines fail. -/
theorem c6_exact_format_counterexample :
    Instruction.decode "addr 1 2 3 4" =
      some { op_code := OpCode.Addr, inputs := (1, 2), output := 3 } ∧
    Instruction.decode "addr x 1 2 3" =
      some { op_code := OpCode.Addr, inputs := (1, 2), output := 3 } := by
  exact ⟨by decide, by decide⟩

/-- C6 (amended): decode succeeds exactly when the first space-separated
token is one of the 16 opcode names and at least three of the remaining
tokens parse as signed 64-bit integers (the first three become the operands;
unparseable or extra tokens are ignored); a line on which decode fails and
that is not an ip directive aborts the load with the bad-instruction error. -/
theorem c6_decode_success_amended :
    (∀ s tok rest, splitTokens s = tok :: rest →
      ((Instruction.decode s).isSome = true ↔
        ((OpCode.decode tok).isSome = true ∧ 3 ≤ (rest.filterMap parseI64).length))) ∧
    (∀ d line rest2, "#ip".data.isPrefixOf line.data = false →
      Instruction.decode line = none →
      Device.load d (line :: rest2) = Except.error "bad instruction") := by
  constructor
  · intro s tok rest h
    unfold Instruction.decode
    rw [h]
    cases hd : OpCode.decode tok with
    | none => simp [hd]
    | some op =>
      cases hfm : rest.filterMap parseI64 with
      | nil => simp [hd, hfm]
      | cons a t =>
        cases t with
        | nil => simp [hd, hfm]
        | cons b t2 =>
          cases t2 with
          | nil => simp [hd, hfm]
          | cons c t3 => simp [hd, hfm]
  · intro d line rest2 hpre hdec
    simp [Device.load, Device.loadLines, hpre, hdec]

/-- Witness for the amended C6 at the four-operand line. -/
theorem c6_decode_success_amended_witness :
    splitTokens "addr 1 2 3 4" = "addr" :: ["1", "2", "3", "4"] ∧
    ((Instruction.decode "addr 1 2 3 4").isSome = true ↔
      ((OpCode.decode "addr").isSome = true ∧
        3 ≤ (["1", "2", "3", "4"].filterMap parseI64).length)) :=
  ⟨by decide,
    c6_decode_success_amended.1 "addr 1 2 3 4" "addr" ["1", "2", "3", "4"] (by decide)⟩

/-- C7 counterexample: the loader accepts an ip index outside 0..5 and
stores it unchecked. -/
theorem c7_range_check_counterexample :
    Device.load defaultDevice ["#ip 7"] =
      Except.ok { halted := false
                  instructions := []
                  registers := { defaultRegisters with ip := 7 }
                  count := 0
                  unique := ∅ } ∧
    ¬ (7 : Nat) ≤ 5 := by
  exact ⟨by decide, by decide⟩

/-- C7 (amended): for a line starting with the characters of the ip
directive, load succeeds for every second token that parses as usize (any
value in 0..2^64, with no 0..5 range check), storing it as the ip index;
a missing or unparseable argument aborts the load with an error. -/
theorem c7_ip_directive_amended (d : Device) (line : String)
    (hpre : "#ip".data.isPrefixOf line.data = true) :
    (∀ arg n, (splitTokens line)[1]? = some arg → parseUsize arg = some n →
      Device.load d [line] =
        Except.ok { halted := false
                    instructions := []
                    registers := { d.registers.resetR with ip := n }
                    count := 0
                    unique := ∅ }) ∧
    (∀ arg, (splitTokens line)[1]? = some arg → parseUsize arg = none →
      Device.load d [line] = Except.error "bad argument to ip directive") ∧
    ((splitTokens line)[1]? = none →
      Device.load d [line] = Except.error "expected argument to ip directive") := by
  refine ⟨?_, ?_, ?_⟩
  · intro arg n harg hn
    simp [Device.load, Device.loadLines, Device.reset, hpre, harg, hn]
  · intro arg harg hn
    simp [Device.load, Device.loadLines, Device.reset, hpre, harg, hn]
  · intro harg
    simp [Device.load, Device.loadLines, Device.reset, hpre, harg]

/-- Witness for the amended C7: an out-of-range directive loads fine. -/
theorem c7_ip_directive_amended_witness :
    "#ip".data.isPrefixOf "#ip 9".data = true ∧
    Device.load defaultDevice ["#ip 9"] =
      Except.ok { halted := false
                  instructions := []
                  registers := { defaultRegisters.resetR with ip := 9 }
                  count := 0
                  unique := ∅ } :=
  ⟨by decide,
    (c7_ip_directive_amended defaultDevice "#ip 9" (by decide)).1 "9" 9 (by decide) (by decide)⟩

/-- A successful ip increment stores old-ip-cell + 1 back in the ip cell. -/
theorem ipInc_ok (r r3 : Registers) (h : r.ipInc = Except.ok r3) :
    ∃ u, r.registers[r.ip]? = some u ∧
      r3 = { r with registers := r.registers.set r.ip (u + 1) } := by
  unfold Registers.ipInc at h
  cases hg : r.registers[r.ip]? with
  | none => rw [hg] at h; cases h
  | some u =>
    rw [hg] at h
    injection h with h2
    exact ⟨u, rfl, h2.symm⟩

/-- C2: a successful non-halting step records last_ip = Some ip, inserts ip
into unique, and leaves the ip-index cell at ip + 1 unless the executed
instruction itself wrote that register, in which case the cell holds the
written value + 1. Cells are assumed inside the i64 range and the program at
most 2^63 lines long, as on the real machine. The last conjunct checks the
concrete `#ip 5` scenario: after two steps cells[0] = 4, cells[5] = 2,
last_ip = Some 1, halted = false, and the third step halts. -/
theorem c2_step_effects :
    (∀ d d' ip inst,
      d.registers.ipVal = Except.ok ip →
      d.instructions[ip]? = some inst →
      Device.step d = (Except.ok (), d') →
      (∀ x ∈ d.registers.registers, -(2 ^ 63) ≤ x ∧ x < 2 ^ 63) →
      d.instructions.length ≤ 2 ^ 63 →
      (d'.registers.last_ip = some ip ∧
       ip ∈ d'.unique ∧
       ∀ w, (OpCode.rhsOf inst.op_code { d.registers with last_ip := some ip }
               inst.inputs.1 inst.inputs.2).1 = Except.ok w →
         d'.registers.registers[d.registers.ip]? =
           some (if asReg inst.output = d.registers.ip then w + 1 else (ip : Int) + 1))) ∧
    ((Device.load defaultDevice ["#ip 5", "seti 3 0 0", "addi 0 1 0"]).map
      (fun d0 =>
        ((Device.step (Device.step d0).2).2.registers.registers[0]?,
         (Device.step (Device.step d0).2).2.registers.registers[5]?,
         (Device.step (Device.step d0).2).2.registers.last_ip,
         (Device.step (Device.step d0).2).2.halted,
         (Device.step (Device.step (Device.step d0).2).2).2.halted))) =
    Except.ok (some 4, some 2, some 1, false, true) := by
  constructor
  · intro d d' ip inst h1 h2 hstep hbound hlen
    obtain ⟨v, hv, hasv⟩ := ipVal_some d.registers ip h1
    have hiplt : ip < d.instructions.length := (List.getElem?_eq_some.mp h2).1
    have hidxlt : d.registers.ip < d.registers.registers.length :=
      (List.getElem?_eq_some.mp hv).1
    rw [step_exec d ip inst h1 h2] at hstep
    rcases happ : OpCode.apply inst.op_code { d.registers with last_ip := some ip }
        inst.inputs inst.output with ⟨ra, r2⟩
    rw [happ] at hstep
    cases ra with
    | error e => simp at hstep
    | ok uu =>
      dsimp only [] at hstep
      cases hinc : r2.ipInc with
      | error e => rw [hinc] at hstep; simp at hstep
      | ok r3 =>
        rw [hinc] at hstep
        simp at hstep
        obtain ⟨w0, rr, hrhs, ⟨u0, hu0⟩, hr2⟩ :=
          apply_ok inst.op_code { d.registers with last_ip := some ip } inst.inputs
            inst.output r2 happ
        obtain ⟨hfr1, hfr2, hfr3⟩ :=
          rhsOf_frame inst.op_code { d.registers with last_ip := some ip }
            inst.inputs.1 inst.inputs.2
        rw [hrhs] at hfr1 hfr2 hfr3
        dsimp only [] at hfr1 hfr2 hfr3
        obtain ⟨u1, hu1, hr3⟩ := ipInc_ok r2 r3 hinc
        have hr2regs : r2.registers = d.registers.registers.set (asReg inst.output) w0 := by
          rw [hr2]
          dsimp only []
          rw [hfr1]
        have hr2ip : r2.ip = d.registers.ip := by
          rw [hr2]
          dsimp only []
          rw [hfr2]
        have hr2last : r2.last_ip = some ip := by
          rw [hr2]
          dsimp only []
          rw [hfr3]
        subst hstep
        refine ⟨?_, ?_, ?_⟩
        · show r3.last_ip = some ip
          rw [hr3]
          dsimp only []
          exact hr2last
        · show ip ∈ insert ip d.unique
          exact Finset.mem_insert_self ip d.unique
        · intro w hw
          rw [hrhs] at hw
          dsimp only [] at hw
          injection hw with hw2
          subst hw2
          show r3.registers[d.registers.ip]? = some
            (if asReg inst.output = d.registers.ip then w0 + 1 else (ip : Int) + 1)
          rw [hr3]
          dsimp only []
          rw [hr2ip, hr2regs] at hu1 ⊢
          have hlt2 : d.registers.ip <
              (d.registers.registers.set (asReg inst.output) w0).length := by
            rw [List.length_set]
            exact hidxlt
          rw [List.getElem?_set_eq_of_lt (u1 + 1) hlt2]
          by_cases hcase : asReg inst.output = d.registers.ip
          · rw [hcase] at hu1
            rw [List.getElem?_set_eq_of_lt w0 hidxlt] at hu1
            injection hu1 with hu1e
            rw [if_pos hcase, hu1e]
          · rw [List.getElem?_set_ne hcase] at hu1
            rw [hv] at hu1
            injection hu1 with hu1e
            have hvmem : v ∈ d.registers.registers := List.getElem?_mem hv
            obtain ⟨hb1, hb2⟩ := hbound v hvmem
            have hvnn : 0 ≤ v := by
              by_contra hneg
              push_neg at hneg
              have hge := asReg_of_neg v hb1 hneg
              rw [hasv] at hge
              have e63 : (2 : Nat) ^ 63 = 9223372036854775808 := by norm_num
              rw [e63] at hge
              have hlt63 : ip < 2 ^ 63 := lt_of_lt_of_le hiplt hlen
              rw [e63] at hlt63
              omega
            have hcast : (asReg v : Int) = v := asReg_of_nonneg v hvnn hb2
            rw [hasv] at hcast
            rw [if_neg hcase, ← hu1e, ← hcast]
  · decide

/-- Hook::test on a Unique hook: read the register (marking it read), pause
exactly when the value is new, extending the seen set and last. -/
theorem test_unique (s : Finset Reg) (l : Option Reg) (r : Nat) (d : Device) (v : Reg)
    (hget : d.registers.registers[r]? = some v) :
    Hook.test (Hook.Unique s l r) d =
      if v ∈ s then
        (Except.ok Act.None, Hook.Unique s l r,
          { d with registers := { d.registers with read := insert r d.registers.read } })
      else
        (Except.ok Act.Pause, Hook.Unique (insert v s) (some v) r,
          { d with registers := { d.registers with read := insert r d.registers.read } }) := by
  unfold Hook.test Registers.reg
  rw [hget]

/-- Running a unique hook over single-register devices equals the
specification-side run, whatever the initial seen set and last value. -/
theorem runHook_unique (r : Nat) (hr : r < 6) (s : Finset Reg) (l : Option Reg)
    (vs : List Reg) :
    runHook (Hook.Unique s l r) (vs.map (devRV r)) = uniqueRunSpec s vs := by
  induction vs generalizing s l with
  | nil => rfl
  | cons v vs ih =>
    have hget : (devRV r v).registers.registers[r]? = some v := by
      show ([0, 0, 0, 0, 0, 0].set r v)[r]? = some v
      rw [List.getElem?_set_eq_of_lt v (by simpa using hr)]
    rw [List.map_cons]
    by_cases hv : v ∈ s
    · rw [runHook, test_unique s l r (devRV r v) v hget, if_pos hv]
      dsimp only []
      rw [uniqueRunSpec, if_pos hv, Finset.insert_eq_self.mpr hv, ih]
    · rw [runHook, test_unique s l r (devRV r v) v hget, if_neg hv]
      dsimp only []
      rw [uniqueRunSpec, if_neg hv, ih]

/-- Inserting an element always grows the erased set by exactly one. -/
theorem card_insert_eq_erase_add_one (B : Finset Reg) (v : Reg) :
    (insert v B).card = (B.erase v).card + 1 := by
  by_cases hv : v ∈ B
  · rw [Finset.insert_eq_self.mpr hv]
    exact (Finset.card_erase_add_one hv).symm
  · rw [Finset.erase_eq_of_not_mem hv]
    exact Finset.card_insert_of_not_mem hv

/-- The specification-side unique run pauses once per distinct unseen value. -/
theorem uniqueRunSpec_count (s : Finset Reg) (vs : List Reg) :
    (uniqueRunSpec s vs).count true = (vs.toFinset \ s).card := by
  induction vs generalizing s with
  | nil => simp [uniqueRunSpec]
  | cons v vs ih =>
    rw [uniqueRunSpec]
    by_cases hv : v ∈ s
    · rw [if_pos hv]
      rw [List.count_cons]
      simp only [beq_iff_eq]
      rw [ih (insert v s), Finset.insert_eq_self.mpr hv]
      have hset : (v :: vs).toFinset \ s = vs.toFinset \ s := by
        ext x
        simp only [List.toFinset_cons, Finset.mem_sdiff, Finset.mem_insert]
        constructor
        · rintro ⟨hx1 | hx2, hx3⟩
          · exact absurd (hx1 ▸ hv) hx3
          · exact ⟨hx2, hx3⟩
        · rintro ⟨hx1, hx2⟩
          exact ⟨Or.inr hx1, hx2⟩
      rw [hset]
      simp
    · rw [if_neg hv]
      rw [List.count_cons]
      simp only [beq_iff_eq]
      rw [ih (insert v s)]
      have hset : (v :: vs).toFinset \ s = insert v (vs.toFinset \ s) := by
        ext x
        simp only [List.toFinset_cons, Finset.mem_sdiff, Finset.mem_insert]
        constructor
        · rintro ⟨hx1 | hx2, hx3⟩
          · exact Or.inl hx1
          · exact Or.inr ⟨hx2, hx3⟩
        · rintro (hx1 | ⟨hx2, hx3⟩)
          · exact ⟨Or.inl hx1, hx1 ▸ hv⟩
          · exact ⟨Or.inr hx2, hx3⟩
      rw [hset, card_insert_eq_erase_add_one]
      have herase : (vs.toFinset \ s).erase v = vs.toFinset \ insert v s := by
        ext x
        simp only [Finset.mem_erase, Finset.mem_sdiff, Finset.mem_insert]
        constructor
        · rintro ⟨hx1, hx2, hx3⟩
          exact ⟨hx2, fun hx4 => hx4.elim hx1 hx3⟩
        · rintro ⟨hx1, hx2⟩
          exact ⟨fun hx3 => hx2 (Or.inl hx3), hx1, fun hx3 => hx2 (Or.inr hx3)⟩
      rw [herase]
      simp

/-- C4 counterexample: reset leaves a Unique hook nested inside All fully
untouched (including its seen set), and leaves the last field of a Unique
hook in place; the claim says both are cleared throughout the tree. -/
theorem c4_reset_counterexample :
    Hook.reset (Hook.All [Hook.Unique {3} none 0]) ≠ Hook.All [Hook.Unique ∅ none 0] ∧
    Hook.reset (Hook.Unique ∅ (some 7) 0) ≠ Hook.Unique ∅ none 0 := by
  constructor
  · intro hcontra
    rw [show Hook.reset (Hook.All [Hook.Unique {3} none 0]) =
        Hook.All [Hook.Unique {3} none 0] from rfl] at hcontra
    injection hcontra with h1
    injection h1 with h2 h3
    injection h2 with hs hl hr
    exact absurd hs (by decide)
  · intro hcontra
    rw [show Hook.reset (Hook.Unique ∅ (some 7) 0) =
        Hook.Unique ∅ (some 7) 0 from rfl] at hcontra
    injection hcontra with hs hl hr
    exact absurd hl (by decide)

/-- C4 (amended): Hook::reset empties the seen set of a Unique hook (its
last field stays), recurses through Not but not through All, whose children
keep their state; after reset a Unique hook evaluated against a sequence of
register values pauses exactly once per distinct value. -/
theorem c4_reset_amended :
    (∀ s l r, Hook.reset (Hook.Unique s l r) = Hook.Unique ∅ l r) ∧
    (∀ h, Hook.reset (Hook.Not h) = Hook.Not (Hook.reset h)) ∧
    (∀ hs, Hook.reset (Hook.All hs) = Hook.All hs) ∧
    (∀ s l r, r < 6 → ∀ vs,
      runHook (Hook.reset (Hook.Unique s l r)) (vs.map (devRV r)) = uniqueRunSpec ∅ vs) ∧
    (∀ vs, (uniqueRunSpec ∅ vs).count true = vs.toFinset.card) := by
  refine ⟨fun s l r => rfl, fun h => rfl, fun hs => rfl, ?_, ?_⟩
  · intro s l r hr vs
    rw [show Hook.reset (Hook.Unique s l r) = Hook.Unique ∅ l r from rfl]
    exact runHook_unique r hr ∅ l vs
  · intro vs
    rw [uniqueRunSpec_count ∅ vs, Finset.sdiff_empty]

/-- Witness for the amended C4: a reset unique hook over values 5, 6, 5
pauses on the first two and not on the repeat. -/
theorem c4_reset_amended_witness :
    (0 : Nat) < 6 ∧
    runHook (Hook.reset (Hook.Unique {9} (some 9) 0)) ([5, 6, 5].map (devRV 0)) =
      uniqueRunSpec ∅ [5, 6, 5] ∧
    uniqueRunSpec ∅ [5, 6, 5] = [true, true, false] ∧
    (uniqueRunSpec ∅ [5, 6, 5]).count true = [5, 6, 5].toFinset.card :=
  ⟨by decide, c4_reset_amended.2.2.2.1 {9} (some 9) 0 (by decide) [5, 6, 5],
    by decide, c4_reset_amended.2.2.2.2 [5, 6, 5]⟩

/-- C5: the Free-mode hook pass of the control loop tests every hook in
insertion order with no skipping: when testing each hook in sequence
succeeds (testEach), the loop returns exactly those updated hooks in order,
and the interactive flag is the old flag or-ed with whether any hook
paused. In particular a hook after one that paused is still evaluated and
its state updates (such as a Unique seen-set insertion) are kept. -/
theorem c5_hook_pass_no_skip :
    ∀ hs flag d rs d2,
      testEach hs d = (Except.ok (), rs, d2) →
      hookPass hs flag d =
        (Except.ok (), rs.map Prod.snd,
          (flag || rs.any (fun p => decide (p.1 = Act.Pause))), d2) := by
  intro hs
  induction hs with
  | nil =>
    intro flag d rs d2 h
    unfold testEach at h
    injection h with h1 h2
    injection h2 with h3 h4
    subst h3
    subst h4
    simp [hookPass]
  | cons h hs ih =>
    intro flag d rs d2 hte
    unfold testEach at hte
    rcases ht : Hook.test h d with ⟨res, h2, dd⟩
    rw [ht] at hte
    cases res with
    | error e => simp at hte
    | ok a =>
      dsimp only [] at hte
      rcases hte2 : testEach hs dd with ⟨res2, rs2, d3⟩
      rw [hte2] at hte
      dsimp only [] at hte
      injection hte with he1 he2
      injection he2 with he3 he4
      subst he1
      subst he3
      subst he4
      unfold hookPass
      rw [ht]
      dsimp only []
      rw [ih (if a = Act.Pause then true else flag) dd rs2 d3 hte2]
      cases a with
      | Pause => simp
      | None => simp

/-- Witness for C5: two unique hooks on the same register; the first pauses
and the second is still evaluated, also pausing and recording the value,
and the pass flips the flag to true. -/
theorem c5_hook_pass_no_skip_witness :
    testEach [Hook.uniqueHook 0, Hook.uniqueHook 0] (devRV 0 5) =
      (Except.ok (),
        [(Act.Pause, Hook.Unique (insert 5 ∅) (some 5) 0),
         (Act.Pause, Hook.Unique (insert 5 ∅) (some 5) 0)],
        (testEach [Hook.uniqueHook 0, Hook.uniqueHook 0] (devRV 0 5)).2.2) ∧
    hookPass [Hook.uniqueHook 0, Hook.uniqueHook 0] false (devRV 0 5) =
      (Except.ok (),
        [Hook.Unique (insert 5 ∅) (some 5) 0, Hook.Unique (insert 5 ∅) (some 5) 0],
        true,
        (testEach [Hook.uniqueHook 0, Hook.uniqueHook 0] (devRV 0 5)).2.2) := by
  refine ⟨by rfl, ?_⟩
  have h := c5_hook_pass_no_skip [Hook.uniqueHook 0, Hook.uniqueHook 0] false (devRV 0 5)
    [(Act.Pause, Hook.Unique (insert 5 ∅) (some 5) 0),
     (Act.Pause, Hook.Unique (insert 5 ∅) (some 5) 0)]
    ((testEach [Hook.uniqueHook 0, Hook.uniqueHook 0] (devRV 0 5)).2.2) (by rfl)
  exact h.trans (by rfl)

/-- The loaded device of the `#ip 5` scenario. -/
def scenario2 : Device :=
  { halted := false
    instructions := [{ op_code := OpCode.Seti, inputs := (3, 0), output := 0 },
                     { op_code := OpCode.Addi, inputs := (0, 1), output := 0 }]
    registers := { defaultRegisters with ip := 5 }
    count := 0
    unique := ∅ }

/-- Witness for C2 at the first step of the `#ip 5` scenario: last_ip is
recorded, the line is in unique, and the ip cell moved from 0 to 1. -/
theorem c2_step_effects_witness :
    scenario2.registers.ipVal = Except.ok 0 ∧
    (Device.step scenario2).2.registers.last_ip = some 0 ∧
    0 ∈ (Device.step scenario2).2.unique ∧
    (Device.step scenario2).2.registers.registers[5]? = some 1 := by
  have h := c2_step_effects.1 scenario2 (Device.step scenario2).2 0
      { op_code := OpCode.Seti, inputs := (3, 0), output := 0 }
      (by decide) (by decide) (by decide) (by decide) (by decide)
  refine ⟨by decide, h.1, h.2.1, ?_⟩
  have h3 := h.2.2 3 (by decide)
  exact h3.trans (by decide)
